import Mathlib

/-!
Shallow embedding of the MR-room hit-test / interaction core.

Source files embedded:
  src/MRroom/src/core/HitTestManager.ts   (Surface Tracker, plain-renderer variant)
  src/unnamed/part_002                    (InteractionManager, plain-renderer variant)
  src/MRroom/src/systems/InteractionSystem.ts (ECS highlight ledger, for the
    write-once ledger property)

Conventions: nullable TS fields become Option / Bool presence flags; THREE.Color
values are 24-bit hex Nats (clone / copy give value semantics, which matches the
source because the ledger stores clones); scalar coordinates are rationals;
exceptions thrown by the external WebXR calls are modelled by an explicit
Res.thrown constructor.
-/

namespace MRroom

/-- A result that either threw an exception or produced a value
(models a call into the external WebXR API that may throw). -/
inductive Res (α : Type) where
  | thrown : Res α
  | ok : α → Res α
deriving DecidableEq, Repr

/-- THREE.Vector3, components as rationals. -/
structure Vec3 where
  x : ℚ
  y : ℚ
  z : ℚ
deriving DecidableEq, Repr

/-- THREE.Matrix4 elements array (column major, 16 entries). -/
abbrev Matrix4 := List ℚ

/-- Vector3.setFromMatrixPosition: the translation lives at elements 12, 13, 14. -/
def setFromMatrixPosition (m : Matrix4) : Vec3 :=
  ⟨m.getD 12 0, m.getD 13 0, m.getD 14 0⟩

/-- An XRPose as consumed by the tracker: its transform matrix. -/
structure XRPose where
  matrix : Matrix4
deriving DecidableEq, Repr

/-- Outcome of XRHitTestResult.getPose(referenceSpace): it can throw,
return null, or return a pose. -/
inductive PoseResult where
  | thrown : PoseResult
  | null : PoseResult
  | pose : XRPose → PoseResult
deriving DecidableEq, Repr

/-- An XRHitTestResult; getPose is taken against the ReferenceFrame the
manager holds for the session. -/
structure XRHitTestResult where
  getPose : PoseResult
deriving DecidableEq, Repr

/-- One XRFrame: what frame.getHitTestResults returns for the right-hand
source and for the gaze source (each call may throw). -/
structure XRFrame where
  handResults : Res (List XRHitTestResult)
  gazeResults : Res (List XRHitTestResult)
deriving DecidableEq, Repr

/-- The slice of the Zustand xrStore the tracker writes
(setHitTestResults / setReticleVisible). -/
structure XRStoreState where
  hitTestResults : List XRHitTestResult
  reticleVisible : Bool
deriving DecidableEq, Repr

/-- The reticle mesh: visibility, transform matrix, material color. -/
structure ReticleMesh where
  visible : Bool
  matrix : Matrix4
  colorHex : Nat
deriving DecidableEq, Repr

/-- Shape kinds of spawned primitives. The third case is rendered by the
source as BoxGeometry(0.05, 0.15, 0.05), an elongated box. -/
inductive ShapeKind where
  | cube : ShapeKind
  | sphere : ShapeKind
  | elongatedBox : ShapeKind
deriving DecidableEq, Repr

/-- A spawned primitive as built by spawnObjectAtHitPosition. -/
structure PlacedObject where
  shape : ShapeKind
  colorHex : Nat
  metalness : ℚ
  roughness : ℚ
  position : Vec3
  interactive : Bool
deriving DecidableEq, Repr

/-- HitTestManager state (src/MRroom/src/core/HitTestManager.ts).
Handles to external resources (sources, session, listeners) are presence
flags; the reticle mesh is owned and inlined. -/
structure HState where
  reticleMesh : Option ReticleMesh
  hitTestSource : Bool
  rightHandHitTestSource : Bool
  rightHandInputSource : Bool
  referenceSpace : Bool
  lastHitPosition : Vec3
  placedObjects : List PlacedObject
  objectCounter : Nat
  session : Bool
  inputSourcesChangeListener : Bool
  sessionEndListener : Bool
  store : XRStoreState
deriving DecidableEq, Repr

/-- The hit-result selection of HitTestManager.update (lines 131-139):
start from the empty list, query the right-hand source when present, and
when that left zero results and a gaze source exists query the gaze source. -/
def chooseHitResults (s : HState) (f : XRFrame) : Res (List XRHitTestResult) :=
  let step1 : Res (List XRHitTestResult) :=
    if s.rightHandHitTestSource then f.handResults else .ok []
  match step1 with
  | .thrown => .thrown
  | .ok l => if l.isEmpty ∧ s.hitTestSource then f.gazeResults else .ok l

/-- HitTestManager.update(frame). Guards: no frame, no reticle mesh or no
reference space is a no-op. The try block can throw only inside
getHitTestResults or getPose, both of which precede every mutation, so the
catch (which only logs) leaves the state exactly as it was on entry.
When a first result exists but its pose is null, the source has no else
branch: nothing is mutated. -/
def update (frame : Option XRFrame) (s : HState) : HState :=
  match frame with
  | none => s
  | some f =>
    match s.reticleMesh with
    | none => s
    | some rm =>
      if s.referenceSpace then
        match chooseHitResults s f with
        | .thrown => s
        | .ok [] =>
          { s with reticleMesh := some { rm with visible := false },
                   store := { s.store with reticleVisible := false } }
        | .ok (hit :: rest) =>
          match hit.getPose with
          | .thrown => s
          | .null => s
          | .pose p =>
            { s with
                reticleMesh := some { rm with matrix := p.matrix, visible := true },
                lastHitPosition := setFromMatrixPosition p.matrix,
                store := { s.store with
                            hitTestResults := hit :: rest,
                            reticleVisible := true } }
      else s

/-- Reticle visibility as observed on the manager (false when the mesh is gone). -/
def visibleOf (s : HState) : Bool :=
  match s.reticleMesh with
  | some rm => rm.visible
  | none => false

/-- Per-kind geometry/material table of spawnObjectAtHitPosition
(switch on counter mod 3); the default branch of the switch returns
without constructing anything. -/
def shapeSpec : Nat → Option (ShapeKind × Nat × ℚ × ℚ)
  | 0 => some (.cube, 0xff0000, 3/10, 7/10)
  | 1 => some (.sphere, 0x00ff00, 1/2, 1/2)
  | 2 => some (.elongatedBox, 0x0000ff, 2/5, 3/5)
  | _ => none

/-- HitTestManager.spawnObjectAtHitPosition: increment the counter, pick the
shape from counter mod 3, place the mesh at lastHitPosition nudged up by
0.05, mark it interactive, append it, and flip the reticle color to the
feedback yellow (the delayed revert to green is a timer, not modelled). -/
def spawnObjectAtHitPosition (s : HState) : HState :=
  let counter := s.objectCounter + 1
  let objectType := counter % 3
  match shapeSpec objectType with
  | none => { s with objectCounter := counter }
  | some (sh, col, met, rgh) =>
    let pos : Vec3 :=
      ⟨s.lastHitPosition.x, s.lastHitPosition.y + 1/20, s.lastHitPosition.z⟩
    let obj : PlacedObject :=
      { shape := sh, colorHex := col, metalness := met, roughness := rgh,
        position := pos, interactive := true }
    let s1 := { s with objectCounter := counter,
                       placedObjects := s.placedObjects ++ [obj] }
    match s1.reticleMesh with
    | some rm => { s1 with reticleMesh := some { rm with colorHex := 0xffff00 } }
    | none => s1

/-- The select-event handler installed by setupTapListener: spawn only when
the reticle mesh exists and is visible. -/
def handleSelect (s : HState) : HState :=
  match s.reticleMesh with
  | some rm => if rm.visible then spawnObjectAtHitPosition s else s
  | none => s

/-- HitTestManager.clearRightHandHitTest: cancel and drop the right-hand
source and forget the associated input source. -/
def clearRightHandHitTest (s : HState) : HState :=
  { s with rightHandHitTestSource := false, rightHandInputSource := false }

/-- HitTestManager.dispose, statement for statement: clear the right-hand
source, cancel the gaze source, detach both session listeners, null the
session, remove and dispose the reticle mesh, then remove and dispose every
placed object and empty the list. Every external access in the source is
behind a null guard, so the translation is a total function. -/
def dispose (s : HState) : HState :=
  let s := clearRightHandHitTest s
  let s := if s.hitTestSource then { s with hitTestSource := false } else s
  let s := { s with session := false, inputSourcesChangeListener := false,
                    sessionEndListener := false }
  let s := match s.reticleMesh with
           | some _ => { s with reticleMesh := none }
           | none => s
  { s with placedObjects := [] }

/-- All resources the claim lists for the Surface Tracker, released. -/
def httmDisposed (s : HState) : Prop :=
  s.rightHandHitTestSource = false ∧ s.rightHandInputSource = false ∧
  s.hitTestSource = false ∧ s.session = false ∧
  s.inputSourcesChangeListener = false ∧ s.sessionEndListener = false ∧
  s.reticleMesh = none ∧ s.placedObjects = []

/-- A MeshStandardMaterial-or-other material of a renderable part.
Highlighting touches a part only when its material is a standard material. -/
structure Material where
  standard : Bool
  color : Nat
  emissive : Nat
  emissiveIntensity : ℚ
deriving DecidableEq, Repr

/-- One renderable node visited by Object3D.traverse: its id and, when it is
a Mesh carrying a material, that material. -/
structure Part where
  id : Nat
  material : Option Material
deriving DecidableEq, Repr

/-- An Object3D as the InteractionManager observes it: its root id (the
identity used for hover/selection) together with the sequence of nodes its
traverse visits, in traversal order. Highlighting and unhighlighting act
pointwise on this sequence, so the traversal sequence is a faithful view. -/
structure Object3D where
  rootId : Nat
  parts : List Part
deriving DecidableEq, Repr

/-- Lookup in the original-colors ledger (Map.get on child.id). -/
def ledgerLookup (j : Nat) : List (Nat × Nat) → Option Nat
  | [] => none
  | (i, c) :: rest => if i = j then some c else ledgerLookup j rest

/-- The guarded ledger write of highlightObject: record the given current
color for this part id unless an entry already exists. -/
def recordColor (led : List (Nat × Nat)) (i c : Nat) : List (Nat × Nat) :=
  match ledgerLookup i led with
  | some _ => led
  | none => (i, c) :: led

/-- The ledger read of unhighlightObject: the recorded original color when
one exists, the fallback (leaving the color as it is) otherwise. -/
def restoreColor (led : List (Nat × Nat)) (i fallback : Nat) : Nat :=
  match ledgerLookup i led with
  | some c0 => c0
  | none => fallback

/-- The traverse body of InteractionManager.highlightObject: for each
standard-material part, record its current color in the ledger unless an
entry for its id already exists, then set color and emissive to the
highlight color and emissive intensity to 0.3. -/
def highlightParts (color : Nat) :
    List Part → List (Nat × Nat) → List Part × List (Nat × Nat)
  | [], led => ([], led)
  | p :: ps, led =>
    match p.material with
    | some m =>
      if m.standard then
        let led1 := recordColor led p.id m.color
        let m1 : Material :=
          { standard := m.standard, color := color, emissive := color,
            emissiveIntensity := 3/10 }
        let p1 : Part := { p with material := some m1 }
        let r := highlightParts color ps led1
        (p1 :: r.1, r.2)
      else
        let r := highlightParts color ps led
        (p :: r.1, r.2)
    | none =>
      let r := highlightParts color ps led
      (p :: r.1, r.2)

/-- The traverse body of InteractionManager.unhighlightObject: restore the
recorded original color when one exists, zero the emissive color and its
intensity. The ledger is only read. -/
def unhighlightParts (led : List (Nat × Nat)) : List Part → List Part
  | [] => []
  | p :: ps =>
    match p.material with
    | some m =>
      if m.standard then
        let c := restoreColor led p.id m.color
        let m1 : Material :=
          { standard := m.standard, color := c, emissive := 0,
            emissiveIntensity := 0 }
        { p with material := some m1 } :: unhighlightParts led ps
      else p :: unhighlightParts led ps
    | none => p :: unhighlightParts led ps

/-- A canvas event name the InteractionManager registers listeners for. -/
inductive CanvasEvent where
  | pointermove : CanvasEvent
  | click : CanvasEvent
deriving DecidableEq, Repr

/-- InteractionManager state (src/unnamed/part_002). Function identities
produced by Function.prototype.bind are modelled by a counter: every bind
call yields a fresh identity, and the canvas listener list stores
(event, identity) pairs. -/
structure IMState where
  scene : List Object3D
  hoveredObject : Option Nat
  selectedObject : Option Nat
  originalColors : List (Nat × Nat)
  pointer : ℚ × ℚ
  canvasListeners : List (CanvasEvent × Nat)
  bindCounter : Nat
  isPresenting : Bool
  storeSelectedId : Option Nat
  storeHoveredId : Option Nat
deriving DecidableEq, Repr

/-- The state right after the constructor ran: setupEventListeners bound
onPointerMove and onClick (fresh identities 0 and 1) and registered them. -/
def initialIMState (scene : List Object3D) : IMState :=
  { scene := scene, hoveredObject := none, selectedObject := none,
    originalColors := [], pointer := (0, 0),
    canvasListeners := [(.pointermove, 0), (.click, 1)], bindCounter := 2,
    isPresenting := false, storeSelectedId := none, storeHoveredId := none }

/-- Apply highlightObject to the scene object the selected reference points
at; object references are resolved by root id (first match). -/
def applyHighlight (color : Nat) (i : Nat) :
    List Object3D → List (Nat × Nat) → List Object3D × List (Nat × Nat)
  | [], led => ([], led)
  | o :: os, led =>
    if o.rootId = i then
      let r := highlightParts color o.parts led
      ({ o with parts := r.1 } :: os, r.2)
    else
      let r := applyHighlight color i os led
      (o :: r.1, r.2)

/-- Apply unhighlightObject to the scene object with the given root id. -/
def applyUnhighlight (i : Nat) (led : List (Nat × Nat)) :
    List Object3D → List Object3D
  | [] => []
  | o :: os =>
    if o.rootId = i then { o with parts := unhighlightParts led o.parts } :: os
    else o :: applyUnhighlight i led os

/-- Highlight the referenced object and merge the grown ledger back. -/
def highlightIn (i : Nat) (color : Nat) (s : IMState) : IMState :=
  let r := applyHighlight color i s.scene s.originalColors
  { s with scene := r.1, originalColors := r.2 }

/-- Unhighlight the referenced object (ledger is read only). -/
def unhighlightIn (i : Nat) (s : IMState) : IMState :=
  { s with scene := applyUnhighlight i s.originalColors s.scene }

/-- InteractionManager.deselectObject: when something is selected,
unhighlight it, clear the selection and publish null. -/
def deselectObject (s : IMState) : IMState :=
  match s.selectedObject with
  | some j =>
    let s1 := unhighlightIn j s
    { s1 with selectedObject := none, storeSelectedId := none }
  | none => s

/-- InteractionManager.selectObject: toggle off when the same object is
selected again; otherwise unhighlight the previous selection, select the
new object, highlight it magenta (0xff00ff) and publish its identity. -/
def selectObject (i : Nat) (s : IMState) : IMState :=
  if s.selectedObject = some i then deselectObject s
  else
    let s1 := match s.selectedObject with
              | some j => unhighlightIn j s
              | none => s
    let s2 := { s1 with selectedObject := some i }
    let s3 := highlightIn i 0xff00ff s2
    { s3 with storeSelectedId := some i }

/-- InteractionManager.onClick, with the raycast outcome (root id of the
nearest picked interactive object, if any) supplied at the interface:
inactive while presenting, select the picked object or deselect. -/
def onClick (picked : Option Nat) (s : IMState) : IMState :=
  if s.isPresenting then s
  else
    match picked with
    | some i => selectObject i s
    | none => deselectObject s

/-- InteractionManager.update, with the raycast outcome supplied: maintain
hover state, unhighlighting the previous hover target and highlighting the
new one in green (0x00ff00), publishing transitions. -/
def updateIM (picked : Option Nat) (s : IMState) : IMState :=
  if s.isPresenting then s
  else
    match picked with
    | some i =>
      if s.hoveredObject = some i then s
      else
        let s1 := match s.hoveredObject with
                  | some j => unhighlightIn j s
                  | none => s
        let s2 := { s1 with hoveredObject := some i }
        let s3 := highlightIn i 0x00ff00 s2
        { s3 with storeHoveredId := some i }
    | none =>
      match s.hoveredObject with
      | some j =>
        let s1 := unhighlightIn j s
        { s1 with hoveredObject := none, storeHoveredId := none }
      | none => s

/-- InteractionManager.onPointerMove: inactive while presenting, otherwise
store the normalized device coordinate computed from the client position
and the canvas bounding rectangle. -/
def onPointerMove (cx cy left top w h : ℚ) (s : IMState) : IMState :=
  if s.isPresenting then s
  else { s with pointer := (((cx - left) / w) * 2 - 1,
                           -((cy - top) / h) * 2 + 1) }

/-- Deliver a pointermove DOM event: the handler body runs when a listener
for pointermove is (still) registered on the canvas. -/
def dispatchPointerMove (cx cy left top w h : ℚ) (s : IMState) : IMState :=
  if s.canvasListeners.any (fun p => p.1 = CanvasEvent.pointermove) then
    onPointerMove cx cy left top w h s
  else s

/-- InteractionManager.dispose: call removeEventListener with freshly bound
copies of onPointerMove and onClick (bind yields new identities, so the
pairs being removed were never registered), clear the ledger and reset
hover and selection. -/
def imDispose (s : IMState) : IMState :=
  let pmBind := s.bindCounter
  let clickBind := s.bindCounter + 1
  let l1 := s.canvasListeners.filter
    (fun p => ¬(p.1 = CanvasEvent.pointermove ∧ p.2 = pmBind))
  let l2 := l1.filter (fun p => ¬(p.1 = CanvasEvent.click ∧ p.2 = clickBind))
  { s with canvasListeners := l2, bindCounter := s.bindCounter + 2,
           originalColors := [], hoveredObject := none, selectedObject := none }

/-- The Selection Controller resources the disposal claim lists, cleared. -/
def imDisposed (s : IMState) : Prop :=
  s.originalColors = [] ∧ s.hoveredObject = none ∧ s.selectedObject = none

/-- ECS variant material (src/MRroom/src/systems/InteractionSystem.ts):
color and emissive may be absent, and getHex comes through a JS
truthiness default. -/
structure EcsMaterial where
  color : Option Nat
  emissive : Option Nat
  emissiveIntensity : ℚ
deriving DecidableEq, Repr

/-- One node of the ECS traverse: isMesh flag and the material if any. -/
structure EcsPart where
  id : Nat
  isMesh : Bool
  material : Option EcsMaterial
deriving DecidableEq, Repr

/-- The recorded color in InteractionSystem.highlightObject:
child.material.color?.getHex() || 0xffffff (note 0 is falsy in JS). -/
def ecsRecordedColor (m : EcsMaterial) : Nat :=
  match m.color with
  | some c => if c = 0 then 0xffffff else c
  | none => 0xffffff

/-- The traverse body of InteractionSystem.highlightObject. With
highlight = true it records the original color unless an entry exists and
applies the resolved highlight color; with highlight = false it restores
the recorded color and zeroes the emissive settings. -/
def ecsHighlightParts (highlight : Bool) (hColor : Nat) :
    List EcsPart → List (Nat × Nat) → List EcsPart × List (Nat × Nat)
  | [], led => ([], led)
  | p :: ps, led =>
    match p.material with
    | some m =>
      if p.isMesh then
        if highlight then
          let led1 := match ledgerLookup p.id led with
                      | some _ => led
                      | none => (p.id, ecsRecordedColor m) :: led
          let m1 := { m with
            color := match m.color with
                     | some _ => some hColor
                     | none => none,
            emissive := match m.emissive with
                        | some _ => some hColor
                        | none => none,
            emissiveIntensity := match m.emissive with
                                 | some _ => (3 : ℚ)/10
                                 | none => m.emissiveIntensity }
          let r := ecsHighlightParts highlight hColor ps led1
          ({ p with material := some m1 } :: r.1, r.2)
        else
          let m1 := { m with
            color := match ledgerLookup p.id led, m.color with
                     | some c0, some _ => some c0
                     | _, _ => m.color,
            emissive := match m.emissive with
                        | some _ => some 0
                        | none => none,
            emissiveIntensity := match m.emissive with
                                 | some _ => (0 : ℚ)
                                 | none => m.emissiveIntensity }
          let r := ecsHighlightParts highlight hColor ps led
          ({ p with material := some m1 } :: r.1, r.2)
      else
        let r := ecsHighlightParts highlight hColor ps led
        (p :: r.1, r.2)
    | none =>
      let r := ecsHighlightParts highlight hColor ps led
      (p :: r.1, r.2)

/-- A discrete operation delivered to the InteractionManager within a
session: a per-frame update or a click, each carrying the raycast outcome. -/
inductive IMOp where
  | frame : Option Nat → IMOp
  | click : Option Nat → IMOp
deriving DecidableEq, Repr

/-- Run one operation. -/
def imStep (op : IMOp) (s : IMState) : IMState :=
  match op with
  | .frame picked => updateIM picked s
  | .click picked => onClick picked s

/-- Run a sequence of operations in order. -/
def runOps (ops : List IMOp) (s : IMState) : IMState :=
  ops.foldl (fun t op => imStep op t) s

/-- Ids of the parts a highlight pass touches: parts whose material is a
standard material, in traversal order. -/
def stdIds : List Part → List Nat
  | [] => []
  | p :: ps =>
    match p.material with
    | some m => if m.standard then p.id :: stdIds ps else stdIds ps
    | none => stdIds ps

/-- Keep every original color but zero the emissive settings of each
standard-material part: the net effect the round-trip claim expects on a
traversal sequence. -/
def zeroEmissiveParts : List Part → List Part
  | [] => []
  | p :: ps =>
    (match p.material with
     | some m =>
       if m.standard then
         let m1 : Material :=
           { standard := m.standard, color := m.color, emissive := 0,
             emissiveIntensity := 0 }
         { p with material := some m1 }
       else p
     | none => p) :: zeroEmissiveParts ps

/-- Replace the first scene object carrying the given root id. -/
def replaceByRoot (i : Nat) (o1 : Object3D) : List Object3D → List Object3D
  | [] => []
  | o :: os => if o.rootId = i then o1 :: os else o :: replaceByRoot i o1 os

/-- Decides whether the poll of one frame succeeds in the sense of the
visibility claim: the chosen source returned at least one result and the
first result resolved to a pose. -/
def pollSucceeds (s : HState) (f : XRFrame) : Bool :=
  match chooseHitResults s f with
  | .ok (h :: _) =>
    match h.getPose with
    | .pose _ => true
    | _ => false
  | _ => false

/-- Decides whether polling this frame throws (either getHitTestResults
call, or getPose on the first chosen result). -/
def pollThrew (s : HState) (f : XRFrame) : Bool :=
  match chooseHitResults s f with
  | .thrown => true
  | .ok (h :: _) =>
    match h.getPose with
    | .thrown => true
    | _ => false
  | .ok [] => false

/-- The reticle visibility invariant exactly as the spec states it, at one
frame: after the poll, visible iff the poll succeeded, and in every other
case visible is false and false is published to the store. -/
def reticleVisibilityClaim (s : HState) (f : XRFrame) : Prop :=
  (visibleOf (update (some f) s) = true ↔ pollSucceeds s f = true) ∧
  (pollSucceeds s f = false →
    visibleOf (update (some f) s) = false ∧
    (update (some f) s).store.reticleVisible = false)

/-- The transient-frame-error fallback exactly as the spec states it: when
polling throws, the state for that frame falls back to not visible. -/
def exceptionFallbackClaim (s : HState) (f : XRFrame) : Prop :=
  pollThrew s f = true → visibleOf (update (some f) s) = false

/-- A store snapshot that currently publishes a visible reticle. -/
def visibleStore : XRStoreState :=
  { hitTestResults := [], reticleVisible := true }

/-- A tracker state mid-session whose reticle is visible from a previous
frame: gaze source only, reference space established. -/
def cexHState : HState :=
  { reticleMesh := some { visible := true, matrix := [], colorHex := 0x00ff00 },
    hitTestSource := true, rightHandHitTestSource := false,
    rightHandInputSource := false, referenceSpace := true,
    lastHitPosition := ⟨1, 2, 3⟩, placedObjects := [], objectCounter := 0,
    session := true, inputSourcesChangeListener := true,
    sessionEndListener := true, store := visibleStore }

/-- A frame whose gaze hit list is nonempty but whose first result fails to
resolve a pose (getPose returns null). -/
def poseNullFrame : XRFrame :=
  { handResults := .ok [], gazeResults := .ok [{ getPose := .null }] }

/-- The same tracker state but with an active right-hand source. -/
def cexHandHState : HState :=
  { cexHState with rightHandHitTestSource := true, rightHandInputSource := true }

/-- A frame in which querying the right-hand source throws. -/
def handThrowsFrame : XRFrame :=
  { handResults := .thrown, gazeResults := .ok [] }

/-- A pose whose transform matrix carries the translation (4, 5, 6). -/
def samplePose : XRPose :=
  { matrix := [1, 0, 0, 0, 0, 1, 0, 0, 0, 0, 1, 0, 4, 5, 6, 1] }

/-- A frame with one resolvable hand result and one resolvable gaze result
carrying a different pose. -/
def handHitFrame : XRFrame :=
  { handResults := .ok [{ getPose := .pose samplePose }],
    gazeResults := .ok [{ getPose := .pose { matrix := [] } }] }

/-- The aliasing-relevant view of the tracker: a heap of Vector3 cells and
the reference its lastHitPosition field holds. Object references are heap
indices; clone allocates a fresh cell. -/
structure TrackerHeap where
  heap : List Vec3
  lastHitRef : Nat
deriving DecidableEq, Repr

/-- Read the Vector3 a reference points at. -/
def readVector (v : TrackerHeap) (r : Nat) : Vec3 :=
  v.heap.getD r ⟨0, 0, 0⟩

/-- HitTestManager.getLastHitPosition: return this.lastHitPosition.clone(),
that is a freshly allocated cell holding the current value; the internal
reference is untouched. -/
def getLastHitPosition (v : TrackerHeap) : Nat × TrackerHeap :=
  (v.heap.length,
   { heap := v.heap ++ [readVector v v.lastHitRef], lastHitRef := v.lastHitRef })

/-- A caller mutating a Vector3 it holds a reference to (set / copy / add
all amount to storing a new value in that cell). -/
def writeVector (v : TrackerHeap) (r : Nat) (w : Vec3) : TrackerHeap :=
  { v with heap := v.heap.set r w }

/-- Where a subsequent spawn would place its object: the internal
lastHitPosition nudged up by 0.05. -/
def spawnPositionOf (v : TrackerHeap) : Vec3 :=
  let p := readVector v v.lastHitRef
  ⟨p.x, p.y + 1/20, p.z⟩

/-- The mapping the spawn-rotation claim states for counter mod 3. -/
def shapeForCounter : Nat → ShapeKind
  | 0 => .cube
  | 1 => .sphere
  | _ => .elongatedBox

/-- A concrete tracker state with a visible reticle and counter zero. -/
def sampleHState : HState :=
  { cexHState with store := { hitTestResults := [], reticleVisible := false } }

/-- The same tracker state with a hidden reticle. -/
def hiddenHState : HState :=
  { sampleHState with
      reticleMesh := some { visible := false, matrix := [], colorHex := 0x00ff00 } }

/-- A one-object scene for concrete interaction runs: a single interactive
mesh whose traversal is itself, with a standard red material. -/
def sampleScene : List Object3D :=
  [{ rootId := 10,
     parts := [{ id := 10,
                 material := some { standard := true, color := 0xff0000,
                                    emissive := 0, emissiveIntensity := 0 } }] }]

/-! Helper lemmas (shared; not claim theorems). -/

/-- One spawn appends exactly one object, increments the counter, and the
object carries the shape of the incremented counter mod 3, the nudged
position and the interactive flag. -/
theorem spawn_spec (s : HState) :
    ∃ obj : PlacedObject,
      (spawnObjectAtHitPosition s).placedObjects = s.placedObjects ++ [obj] ∧
      (spawnObjectAtHitPosition s).objectCounter = s.objectCounter + 1 ∧
      obj.shape = shapeForCounter ((s.objectCounter + 1) % 3) ∧
      obj.position = ⟨s.lastHitPosition.x, s.lastHitPosition.y + 1/20,
                      s.lastHitPosition.z⟩ ∧
      obj.interactive = true := by
  have h3 : (s.objectCounter + 1) % 3 = 0 ∨ (s.objectCounter + 1) % 3 = 1 ∨
      (s.objectCounter + 1) % 3 = 2 := by omega
  rcases h3 with h | h | h <;>
    · simp only [spawnObjectAtHitPosition, h, shapeSpec, shapeForCounter]
      cases s.reticleMesh <;> exact ⟨_, rfl, rfl, rfl, rfl, rfl⟩

/-- C3: for every N at least 1, the Nth successful spawn (counter starting
at 0 and incremented once per spawn) appends one object whose shape kind is
N mod 3 under the mapping 0 to cube, 1 to sphere, 2 to elongated box. -/
theorem spawn_shape_rotation (s : HState) (n : Nat)
    (hn : 1 ≤ n) (hc : s.objectCounter + 1 = n) :
    ∃ obj : PlacedObject,
      (spawnObjectAtHitPosition s).placedObjects = s.placedObjects ++ [obj] ∧
      obj.shape = shapeForCounter (n % 3) ∧
      (spawnObjectAtHitPosition s).objectCounter = n := by
  obtain ⟨obj, h1, h2, h3, _, _⟩ := spawn_spec s
  exact ⟨obj, h1, by rw [← hc]; exact h3, by rw [← hc]; exact h2⟩

/-- Witness for C3, also checking that spawns 1, 2, 3, 4 from a fresh
session yield sphere, elongated box, cube, sphere. -/
theorem spawn_shape_rotation_witness :
    (∃ obj : PlacedObject,
      (spawnObjectAtHitPosition sampleHState).placedObjects
        = sampleHState.placedObjects ++ [obj] ∧
      obj.shape = shapeForCounter (1 % 3) ∧
      (spawnObjectAtHitPosition sampleHState).objectCounter = 1) ∧
    ((spawnObjectAtHitPosition (spawnObjectAtHitPosition (spawnObjectAtHitPosition
        (spawnObjectAtHitPosition sampleHState)))).placedObjects.map
        PlacedObject.shape
      = [ShapeKind.sphere, ShapeKind.elongatedBox, ShapeKind.cube,
         ShapeKind.sphere]) :=
  ⟨spawn_shape_rotation sampleHState 1 (by decide) (by decide), by decide⟩

/-- C4: the select handler is a no-op while the reticle is not visible; when
it is visible, exactly one object is appended, placed at lastHitPosition
nudged up by 0.05, marked interactive, with the counter incremented. -/
theorem select_spawn_gating (s : HState) :
    (visibleOf s = false → handleSelect s = s) ∧
    (visibleOf s = true →
      ∃ obj : PlacedObject,
        (handleSelect s).placedObjects = s.placedObjects ++ [obj] ∧
        obj.position = ⟨s.lastHitPosition.x, s.lastHitPosition.y + 1/20,
                        s.lastHitPosition.z⟩ ∧
        obj.interactive = true ∧
        (handleSelect s).objectCounter = s.objectCounter + 1) := by
  constructor
  · intro h
    unfold handleSelect
    cases hr : s.reticleMesh with
    | none => rfl
    | some rm =>
      have hv : rm.visible = false := by
        unfold visibleOf at h; rw [hr] at h; exact h
      simp [hv]
  · intro h
    have hvis : ∃ rm : ReticleMesh, s.reticleMesh = some rm ∧ rm.visible = true := by
      unfold visibleOf at h
      cases hr : s.reticleMesh with
      | none => rw [hr] at h; simp at h
      | some rm => rw [hr] at h; exact ⟨rm, rfl, h⟩
    obtain ⟨rm, hr, hv⟩ := hvis
    have hsel : handleSelect s = spawnObjectAtHitPosition s := by
      unfold handleSelect; rw [hr]; simp [hv]
    rw [hsel]
    obtain ⟨obj, h1, h2, _, h4, h5⟩ := spawn_spec s
    exact ⟨obj, h1, h4, h5, h2⟩

/-- Witness for C4: at a visible-reticle state the spawn happens; at the
hidden-reticle state the handler is a no-op. -/
theorem select_spawn_gating_witness :
    (handleSelect hiddenHState = hiddenHState) ∧
    (∃ obj : PlacedObject,
      (handleSelect sampleHState).placedObjects
        = sampleHState.placedObjects ++ [obj] ∧
      obj.position = ⟨sampleHState.lastHitPosition.x,
                      sampleHState.lastHitPosition.y + 1/20,
                      sampleHState.lastHitPosition.z⟩ ∧
      obj.interactive = true ∧
      (handleSelect sampleHState).objectCounter
        = sampleHState.objectCounter + 1) :=
  ⟨(select_spawn_gating hiddenHState).1 (by decide),
   (select_spawn_gating sampleHState).2 (by decide)⟩

/-- C8: disposing the Surface Tracker releases every owned resource and a
second dispose is the identity on the already-disposed state (so it cannot
throw: the model of dispose is a total function whose guards mirror the
null checks of the source); disposing the Selection Controller clears the
ledger and the hover and selection state, and doing it twice leaves them
cleared. -/
theorem dispose_idempotent_resources_released (s : HState) (t : IMState) :
    httmDisposed (dispose s) ∧ dispose (dispose s) = dispose s ∧
    imDisposed (imDispose t) ∧ imDisposed (imDispose (imDispose t)) := by
  refine ⟨?_, ?_, ⟨rfl, rfl, rfl⟩, ⟨rfl, rfl, rfl⟩⟩
  · unfold dispose clearRightHandHitTest httmDisposed
    by_cases h : s.hitTestSource <;> cases hr : s.reticleMesh <;> simp [h, hr]
  · unfold dispose clearRightHandHitTest
    by_cases h : s.hitTestSource <;> cases hr : s.reticleMesh <;> simp [h, hr]

/-- C9 (code behaviour at the failing input): dispose passes freshly bound
functions to removeEventListener, so the originally registered pointermove
and click listeners are still attached afterwards and a later pointermove
event still mutates the pointer state; the ledger and hover/selection
resets of dispose do happen. -/
theorem dispose_listener_removal_fails :
    (imDispose (initialIMState [])).canvasListeners
      = [(CanvasEvent.pointermove, 0), (CanvasEvent.click, 1)] ∧
    (imDispose (initialIMState [])).pointer = (0, 0) ∧
    (dispatchPointerMove 200 0 0 0 200 100 (imDispose (initialIMState []))).pointer
      = (1, 1) ∧
    imDisposed (imDispose (initialIMState [])) := by
  refine ⟨by decide, by decide, ?_, rfl, rfl, rfl⟩
  norm_num [dispatchPointerMove, onPointerMove, imDispose, initialIMState]

/-- C1 (counterexample): the claimed visibility iff-invariant fails on the
code: at a state whose reticle is visible from a previous frame, a frame
whose first gaze result has a null pose leaves visible equal to true while
the poll did not succeed, and nothing is published. -/
theorem reticle_visibility_iff_counterexample :
    ¬ reticleVisibilityClaim cexHState poseNullFrame := by
  intro hcl
  have h2 := hcl.2 (by decide)
  have h3 : visibleOf (update (some poseNullFrame) cexHState) = true := by decide
  rw [h2.1] at h3
  exact Bool.false_ne_true h3

/-- C1 (amended): after update, a nonempty chosen result list whose first
pose resolves sets the reticle visible and publishes the results and true;
an empty chosen list hides the reticle and publishes false; a nonempty
chosen list whose first pose is null, and a throwing poll, leave the whole
state unchanged (so visibility keeps its previous value instead of being
set to false). -/
theorem reticle_visibility_cases (s : HState) (f : XRFrame) (rm : ReticleMesh)
    (hrm : s.reticleMesh = some rm) (href : s.referenceSpace = true) :
    (chooseHitResults s f = Res.ok [] →
      visibleOf (update (some f) s) = false ∧
      (update (some f) s).store.reticleVisible = false) ∧
    (∀ h t p, chooseHitResults s f = Res.ok (h :: t) →
      h.getPose = PoseResult.pose p →
      visibleOf (update (some f) s) = true ∧
      (update (some f) s).store.reticleVisible = true ∧
      (update (some f) s).store.hitTestResults = h :: t ∧
      (update (some f) s).lastHitPosition = setFromMatrixPosition p.matrix) ∧
    (∀ h t, chooseHitResults s f = Res.ok (h :: t) →
      h.getPose = PoseResult.null → update (some f) s = s) ∧
    (chooseHitResults s f = Res.thrown → update (some f) s = s) := by
  refine ⟨?_, ?_, ?_, ?_⟩
  · intro hch
    simp [update, hrm, href, hch, visibleOf]
  · intro h t p hch hp
    simp [update, hrm, href, hch, hp, visibleOf]
  · intro h t hch hp
    simp [update, hrm, href, hch, hp]
  · intro hch
    simp [update, hrm, href, hch]

/-- Witness for C1 (amended): the pose-null case at the concrete state and
frame of the counterexample leaves the state unchanged. -/
theorem reticle_visibility_cases_witness :
    update (some poseNullFrame) cexHState = cexHState :=
  (reticle_visibility_cases cexHState poseNullFrame _ rfl rfl).2.2.1
    { getPose := PoseResult.null } [] (by decide) (by decide)

/-- C2 (counterexample): an exception while polling does not make the state
fall back to not visible: with the reticle visible from a previous frame and
the right-hand query throwing, visibility stays true. -/
theorem frame_exception_visibility_counterexample :
    ¬ exceptionFallbackClaim cexHandHState handThrowsFrame := by
  intro hcl
  have h2 := hcl (by decide)
  have h3 : visibleOf (update (some handThrowsFrame) cexHandHState) = true := by
    decide
  rw [h2] at h3
  exact Bool.false_ne_true h3

/-- C2 (amended): any exception thrown while polling hit results or
resolving the first pose is caught (update is a total function that
returns), and the state for that frame is left exactly as it was at entry
(all throwing calls precede every mutation), rather than being reset to
not visible. -/
theorem frame_exception_caught_state_unchanged (s : HState) (f : XRFrame)
    (h : pollThrew s f = true) : update (some f) s = s := by
  unfold pollThrew at h
  unfold update
  cases hrm : s.reticleMesh with
  | none => rfl
  | some rm =>
    by_cases href : s.referenceSpace = true
    · simp only [href, if_true]
      cases hch : chooseHitResults s f with
      | thrown => rfl
      | ok l =>
        rw [hch] at h
        cases l with
        | nil => simp at h
        | cons hit rest =>
          cases hp : hit.getPose with
          | thrown => simp [hp]
          | null => simp [hp]
          | pose p => simp [hp] at h
    · simp [href]

/-- Witness for C2 (amended): at the concrete throwing frame the state is
returned unchanged. -/
theorem frame_exception_caught_witness :
    update (some handThrowsFrame) cexHandHState = cexHandHState :=
  frame_exception_caught_state_unchanged cexHandHState handThrowsFrame (by decide)

/-- C5: when a right-hand source exists and its query returns a nonempty
list, the chosen results are exactly the hand results, the frame outcome is
independent of whatever the gaze source would have returned (the gaze
source is not consulted), and when the first hand result resolves to a pose
the reticle and the published state come from it. -/
theorem hand_over_gaze_precedence (s : HState) (f : XRFrame)
    (l : List XRHitTestResult) (rm : ReticleMesh)
    (hrh : s.rightHandHitTestSource = true)
    (hres : f.handResults = Res.ok l) (hne : l ≠ [])
    (hrm : s.reticleMesh = some rm) (href : s.referenceSpace = true) :
    chooseHitResults s f = Res.ok l ∧
    (∀ g, update (some { f with gazeResults := g }) s = update (some f) s) ∧
    (∀ h t p, l = h :: t → h.getPose = PoseResult.pose p →
      visibleOf (update (some f) s) = true ∧
      (update (some f) s).lastHitPosition = setFromMatrixPosition p.matrix ∧
      (update (some f) s).store.hitTestResults = l ∧
      (update (some f) s).store.reticleVisible = true) := by
  obtain ⟨h0, t0, rfl⟩ := List.exists_cons_of_ne_nil hne
  have hch : chooseHitResults s f = Res.ok (h0 :: t0) := by
    unfold chooseHitResults
    rw [hrh]
    simp [hres]
  have hch2 : ∀ g, chooseHitResults s { f with gazeResults := g }
      = Res.ok (h0 :: t0) := by
    intro g
    unfold chooseHitResults
    rw [hrh]
    simp [hres]
  refine ⟨hch, ?_, ?_⟩
  · intro g
    simp only [update, hrm, href, if_true, hch, hch2]
  · intro h t p hl hp
    injection hl with hh ht
    subst hh
    subst ht
    simp [update, hrm, href, hch, hp, visibleOf]

/-- Witness for C5: a concrete frame whose hand and gaze sources both hit,
with different poses; the published position is the hand pose translation. -/
theorem hand_over_gaze_precedence_witness :
    chooseHitResults cexHandHState handHitFrame
      = Res.ok [{ getPose := PoseResult.pose samplePose }] ∧
    (update (some handHitFrame) cexHandHState).lastHitPosition = ⟨4, 5, 6⟩ := by
  have hm := hand_over_gaze_precedence cexHandHState handHitFrame
    [{ getPose := PoseResult.pose samplePose }]
    { visible := true, matrix := [], colorHex := 0x00ff00 }
    (by decide) (by decide) (by decide) (by decide) (by decide)
  refine ⟨hm.1, ?_⟩
  have h2 := (hm.2.2 { getPose := PoseResult.pose samplePose } [] samplePose
    rfl rfl).2.1
  rw [h2]
  decide

/-- Storing a new value through one reference leaves the value behind a
different reference unchanged, and the reference field itself never moves. -/
theorem foldl_writeVector_preserves (r j : Nat) (hne : j ≠ r) :
    ∀ (ws : List Vec3) (v : TrackerHeap),
      readVector (ws.foldl (fun acc w => writeVector acc r w) v) j
        = readVector v j ∧
      (ws.foldl (fun acc w => writeVector acc r w) v).lastHitRef
        = v.lastHitRef := by
  intro ws
  induction ws with
  | nil => intro v; exact ⟨rfl, rfl⟩
  | cons w ws ih =>
    intro v
    simp only [List.foldl_cons]
    refine ⟨?_, ?_⟩
    · rw [(ih (writeVector v r w)).1]
      unfold readVector writeVector
      simp only []
      rw [List.getD_eq_getD_get?, List.getD_eq_getD_get?,
        List.get?_set_ne _ _ (fun hx => hne hx.symm)]
    · rw [(ih _).2]; rfl

/-- C10: getLastHitPosition returns a clone; however a caller mutates the
returned vector, the value behind the internal lastHitPosition reference,
and hence the position a subsequent spawn would use, are unchanged, while
the returned cell did start out holding the same value. -/
theorem getLastHitPosition_returns_copy (v : TrackerHeap) (ws : List Vec3)
    (h : v.lastHitRef < v.heap.length) :
    readVector (getLastHitPosition v).2 (getLastHitPosition v).1
      = readVector v v.lastHitRef ∧
    readVector
        (ws.foldl (fun acc w => writeVector acc (getLastHitPosition v).1 w)
          (getLastHitPosition v).2)
        (ws.foldl (fun acc w => writeVector acc (getLastHitPosition v).1 w)
          (getLastHitPosition v).2).lastHitRef
      = readVector v v.lastHitRef ∧
    spawnPositionOf
        (ws.foldl (fun acc w => writeVector acc (getLastHitPosition v).1 w)
          (getLastHitPosition v).2)
      = spawnPositionOf v := by
  have hne : v.lastHitRef ≠ (getLastHitPosition v).1 := Nat.ne_of_lt h
  have base : readVector (getLastHitPosition v).2 v.lastHitRef
      = readVector v v.lastHitRef := by
    unfold getLastHitPosition readVector
    simp only []
    rw [List.getD_append _ _ _ _ h]
  have hfold := foldl_writeVector_preserves (getLastHitPosition v).1
    v.lastHitRef hne ws (getLastHitPosition v).2
  have hcopy : readVector (getLastHitPosition v).2 (getLastHitPosition v).1
      = readVector v v.lastHitRef := by
    unfold getLastHitPosition readVector
    simp only []
    rw [List.getD_append_right _ _ _ _ (Nat.le_refl _), Nat.sub_self]
    rfl
  have hrefs : (getLastHitPosition v).2.lastHitRef = v.lastHitRef := rfl
  refine ⟨hcopy, ?_, ?_⟩
  · rw [hfold.2, hrefs, hfold.1, base]
  · unfold spawnPositionOf
    rw [hfold.2, hrefs, hfold.1, base]

/-- Witness for C10: a concrete heap with one cell; after cloning and
overwriting the clone twice, the internal value and the spawn position are
intact. -/
theorem getLastHitPosition_returns_copy_witness :
    readVector
        ([(⟨7, 7, 7⟩ : Vec3), ⟨8, 8, 8⟩].foldl
          (fun acc w =>
            writeVector acc (getLastHitPosition ⟨[⟨1, 2, 3⟩], 0⟩).1 w)
          (getLastHitPosition ⟨[⟨1, 2, 3⟩], 0⟩).2)
        ([(⟨7, 7, 7⟩ : Vec3), ⟨8, 8, 8⟩].foldl
          (fun acc w =>
            writeVector acc (getLastHitPosition ⟨[⟨1, 2, 3⟩], 0⟩).1 w)
          (getLastHitPosition ⟨[⟨1, 2, 3⟩], 0⟩).2).lastHitRef
      = readVector ⟨[⟨1, 2, 3⟩], 0⟩ 0 :=
  (getLastHitPosition_returns_copy ⟨[⟨1, 2, 3⟩], 0⟩
    [⟨7, 7, 7⟩, ⟨8, 8, 8⟩] (by decide)).2.1

/-- The guarded ledger write never changes an existing entry. -/
theorem ledgerLookup_recordColor (led : List (Nat × Nat)) (i c j v : Nat)
    (h : ledgerLookup j led = some v) :
    ledgerLookup j (recordColor led i c) = some v := by
  unfold recordColor
  cases hl : ledgerLookup i led with
  | some c0 => exact h
  | none =>
    have hij : ¬(i = j) := by
      intro hx
      rw [hx] at hl
      rw [hl] at h
      exact Option.noConfusion h
    unfold ledgerLookup
    simp only [hij, if_false]
    exact h

/-- When no entry exists yet, the guarded write prepends the record. -/
theorem recordColor_of_none (led : List (Nat × Nat)) (i c : Nat)
    (h : ledgerLookup i led = none) : recordColor led i c = (i, c) :: led := by
  unfold recordColor
  rw [h]

/-- When an entry exists, the restore read returns it. -/
theorem restoreColor_of_some (led : List (Nat × Nat)) (i c fb : Nat)
    (h : ledgerLookup i led = some c) : restoreColor led i fb = c := by
  unfold restoreColor
  rw [h]

/-- A highlight pass never changes an existing ledger entry: the only write
is guarded by the has-check. -/
theorem ledgerLookup_highlightParts (c j v : Nat) :
    ∀ (ps : List Part) (led : List (Nat × Nat)),
      ledgerLookup j led = some v →
      ledgerLookup j (highlightParts c ps led).2 = some v := by
  intro ps
  induction ps with
  | nil => intro led h; exact h
  | cons p ps ih =>
    intro led h
    unfold highlightParts
    cases hm : p.material with
    | none => simpa using ih led h
    | some m =>
      by_cases hs : m.standard = true
      · simp only [hs, if_true]
        simpa using ih _ (ledgerLookup_recordColor led p.id m.color j v h)
      · simp only [hs, if_false]
        simpa using ih led h

/-- Lifting the previous lemma through the scene lookup. -/
theorem ledgerLookup_applyHighlight (c i j v : Nat) :
    ∀ (scene : List Object3D) (led : List (Nat × Nat)),
      ledgerLookup j led = some v →
      ledgerLookup j (applyHighlight c i scene led).2 = some v := by
  intro scene
  induction scene with
  | nil => intro led h; exact h
  | cons o os ih =>
    intro led h
    unfold applyHighlight
    by_cases hr : o.rootId = i
    · simp only [hr, if_true]
      simpa using ledgerLookup_highlightParts c j v o.parts led h
    · simp only [hr, if_false]
      simpa using ih led h

/-- highlightIn preserves existing ledger entries. -/
theorem ledger_preserved_highlightIn (i c j v : Nat) (s : IMState)
    (h : ledgerLookup j s.originalColors = some v) :
    ledgerLookup j (highlightIn i c s).originalColors = some v := by
  unfold highlightIn
  simpa using ledgerLookup_applyHighlight c i j v s.scene s.originalColors h

/-- deselectObject never touches the ledger. -/
theorem ledger_preserved_deselect (j v : Nat) (s : IMState)
    (h : ledgerLookup j s.originalColors = some v) :
    ledgerLookup j (deselectObject s).originalColors = some v := by
  unfold deselectObject
  cases hsel : s.selectedObject with
  | none => exact h
  | some i => exact h

/-- selectObject preserves existing ledger entries. -/
theorem ledger_preserved_select (i j v : Nat) (s : IMState)
    (h : ledgerLookup j s.originalColors = some v) :
    ledgerLookup j (selectObject i s).originalColors = some v := by
  unfold selectObject
  by_cases hsel : s.selectedObject = some i
  · simp only [hsel, if_true]
    exact ledger_preserved_deselect j v s h
  · simp only [if_neg hsel]
    cases hprev : s.selectedObject with
    | some k => exact ledger_preserved_highlightIn i 0xff00ff j v _ h
    | none => exact ledger_preserved_highlightIn i 0xff00ff j v _ h

/-- Any single frame or click operation preserves existing ledger entries. -/
theorem ledger_preserved_step (op : IMOp) (s : IMState) (j v : Nat)
    (h : ledgerLookup j s.originalColors = some v) :
    ledgerLookup j (imStep op s).originalColors = some v := by
  cases op with
  | click picked =>
    unfold imStep onClick
    by_cases hp : s.isPresenting = true
    · simp only [hp, if_true]; exact h
    · simp only [hp, if_false]
      cases picked with
      | some i => exact ledger_preserved_select i j v s h
      | none => exact ledger_preserved_deselect j v s h
  | frame picked =>
    unfold imStep updateIM
    by_cases hp : s.isPresenting = true
    · simp only [hp, if_true]; exact h
    · simp only [hp, if_false]
      cases picked with
      | none =>
        cases hh : s.hoveredObject with
        | none => exact h
        | some k => exact h
      | some i =>
        by_cases hh : s.hoveredObject = some i
        · simp only [if_pos hh]; exact h
        · simp only [if_neg hh]
          cases hprev : s.hoveredObject with
          | some k => exact ledger_preserved_highlightIn i 0x00ff00 j v _ h
          | none => exact ledger_preserved_highlightIn i 0x00ff00 j v _ h

/-- Operation sequences preserve existing ledger entries. -/
theorem ledger_preserved_runOps (ops : List IMOp) :
    ∀ (s : IMState) (j v : Nat),
      ledgerLookup j s.originalColors = some v →
      ledgerLookup j (runOps ops s).originalColors = some v := by
  induction ops with
  | nil => intro s j v h; exact h
  | cons op ops ih =>
    intro s j v h
    unfold runOps at *
    simp only [List.foldl_cons]
    exact ih _ j v (ledger_preserved_step op s j v h)

/-- The ECS highlight pass never changes an existing ledger entry either. -/
theorem ledgerLookup_ecsHighlightParts (b : Bool) (hc j v : Nat) :
    ∀ (eps : List EcsPart) (led : List (Nat × Nat)),
      ledgerLookup j led = some v →
      ledgerLookup j (ecsHighlightParts b hc eps led).2 = some v := by
  intro eps
  induction eps with
  | nil => intro led h; exact h
  | cons p ps ih =>
    intro led h
    unfold ecsHighlightParts
    cases hm : p.material with
    | none => simpa using ih led h
    | some m =>
      by_cases hmesh : p.isMesh = true
      · simp only [hmesh, if_true]
        cases b with
        | false => simpa using ih led h
        | true =>
          simp only [if_true]
          cases hl : ledgerLookup p.id led with
          | some c0 => simpa using ih led h
          | none =>
            have hpj : ¬(p.id = j) := by
              intro hx
              rw [hx] at hl
              rw [hl] at h
              exact Option.noConfusion h
            have h2 : ledgerLookup j ((p.id, ecsRecordedColor m) :: led)
                = some v := by
              unfold ledgerLookup
              simp only [hpj, if_false]
              exact h
            simpa using ih _ h2
      · simp only [hmesh, if_false]
        simpa using ih led h

/-- C7: once an original-color entry for a part is in the highlight ledger,
no later highlight pass overwrites it: any sequence of hover frames and
clicks in the plain variant, and any highlight or unhighlight pass of the
ECS variant (hover, select, or grab all route through it), leaves the entry
exactly as recorded. -/
theorem ledger_write_once :
    (∀ (s : IMState) (ops : List IMOp) (j v : Nat),
      ledgerLookup j s.originalColors = some v →
      ledgerLookup j (runOps ops s).originalColors = some v) ∧
    (∀ (b : Bool) (c : Nat) (eps : List EcsPart) (led : List (Nat × Nat))
        (j v : Nat),
      ledgerLookup j led = some v →
      ledgerLookup j (ecsHighlightParts b c eps led).2 = some v) :=
  ⟨fun s ops j v h => ledger_preserved_runOps ops s j v h,
   fun b c eps led j v h => ledgerLookup_ecsHighlightParts b c j v eps led h⟩

/-- Witness for C7: a recorded entry survives a hover, a select, a second
select and an unhover in the plain variant, and an ECS highlight pass. -/
theorem ledger_write_once_witness :
    ledgerLookup 10 (runOps
        [IMOp.frame (some 10), IMOp.click (some 10), IMOp.click (some 10),
         IMOp.frame none]
        { initialIMState sampleScene with
            originalColors := [(10, 0x123456)] }).originalColors
      = some 0x123456 ∧
    ledgerLookup 5 (ecsHighlightParts true 0x00ff00
        [{ id := 5, isMesh := true,
           material := some { color := some 0xff0000, emissive := some 0,
                              emissiveIntensity := 0 } }] [(5, 42)]).2
      = some 42 :=
  ⟨ledger_write_once.1 _ _ 10 0x123456 (by decide),
   ledger_write_once.2 true 0x00ff00 _ [(5, 42)] 5 42 (by decide)⟩

/-- One-step equations for the part passes, on literal parts. -/
theorem highlightParts_cons_none (c pid : Nat) (ps : List Part)
    (led : List (Nat × Nat)) :
    highlightParts c ((⟨pid, none⟩ : Part) :: ps) led
      = (⟨pid, none⟩ :: (highlightParts c ps led).1,
         (highlightParts c ps led).2) := rfl

/-- One-step equation: a part whose material is not standard passes through. -/
theorem highlightParts_cons_nonstd (c pid mc me : Nat) (mei : ℚ)
    (ps : List Part) (led : List (Nat × Nat)) :
    highlightParts c ((⟨pid, some ⟨false, mc, me, mei⟩⟩ : Part) :: ps) led
      = (⟨pid, some ⟨false, mc, me, mei⟩⟩ :: (highlightParts c ps led).1,
         (highlightParts c ps led).2) := rfl

/-- One-step equation: a standard-material part is recolored and its
original color is recorded through the guarded write. -/
theorem highlightParts_cons_std (c pid mc me : Nat) (mei : ℚ)
    (ps : List Part) (led : List (Nat × Nat)) :
    highlightParts c ((⟨pid, some ⟨true, mc, me, mei⟩⟩ : Part) :: ps) led
      = (⟨pid, some ⟨true, c, c, 3/10⟩⟩ ::
           (highlightParts c ps (recordColor led pid mc)).1,
         (highlightParts c ps (recordColor led pid mc)).2) := rfl

/-- One-step equations for the unhighlight pass. -/
theorem unhighlightParts_cons_none (led : List (Nat × Nat)) (pid : Nat)
    (ps : List Part) :
    unhighlightParts led ((⟨pid, none⟩ : Part) :: ps)
      = ⟨pid, none⟩ :: unhighlightParts led ps := rfl

/-- One-step equation: a part whose material is not standard is untouched. -/
theorem unhighlightParts_cons_nonstd (led : List (Nat × Nat))
    (pid mc me : Nat) (mei : ℚ) (ps : List Part) :
    unhighlightParts led ((⟨pid, some ⟨false, mc, me, mei⟩⟩ : Part) :: ps)
      = ⟨pid, some ⟨false, mc, me, mei⟩⟩ :: unhighlightParts led ps := rfl

/-- One-step equation: a standard-material part gets the restored color and
zeroed emissive settings. -/
theorem unhighlightParts_cons_std (led : List (Nat × Nat))
    (pid mc me : Nat) (mei : ℚ) (ps : List Part) :
    unhighlightParts led ((⟨pid, some ⟨true, mc, me, mei⟩⟩ : Part) :: ps)
      = ⟨pid, some ⟨true, restoreColor led pid mc, 0, 0⟩⟩
          :: unhighlightParts led ps := rfl

/-- One-step equations for the expected net effect. -/
theorem zeroEmissiveParts_cons_none (pid : Nat) (ps : List Part) :
    zeroEmissiveParts ((⟨pid, none⟩ : Part) :: ps)
      = ⟨pid, none⟩ :: zeroEmissiveParts ps := rfl

/-- One-step equation: a non-standard material is untouched. -/
theorem zeroEmissiveParts_cons_nonstd (pid mc me : Nat) (mei : ℚ)
    (ps : List Part) :
    zeroEmissiveParts ((⟨pid, some ⟨false, mc, me, mei⟩⟩ : Part) :: ps)
      = ⟨pid, some ⟨false, mc, me, mei⟩⟩ :: zeroEmissiveParts ps := rfl

/-- One-step equation: a standard material keeps its color, zeroed emissive. -/
theorem zeroEmissiveParts_cons_std (pid mc me : Nat) (mei : ℚ)
    (ps : List Part) :
    zeroEmissiveParts ((⟨pid, some ⟨true, mc, me, mei⟩⟩ : Part) :: ps)
      = ⟨pid, some ⟨true, mc, 0, 0⟩⟩ :: zeroEmissiveParts ps := rfl

/-- Core round trip: highlighting a traversal sequence whose
standard-material ids are distinct and not yet in the ledger, then
unhighlighting it with the ledger the highlight produced, restores every
original color and zeroes the emissive settings. -/
theorem highlight_unhighlight_roundtrip (c : Nat) :
    ∀ (ps : List Part) (led : List (Nat × Nat)),
      (stdIds ps).Nodup →
      (∀ i ∈ stdIds ps, ledgerLookup i led = none) →
      unhighlightParts (highlightParts c ps led).2 (highlightParts c ps led).1
        = zeroEmissiveParts ps := by
  intro ps
  induction ps with
  | nil => intro led _ _; rfl
  | cons p ps ih =>
    intro led hnd hfresh
    obtain ⟨pid, pmat⟩ := p
    cases pmat with
    | none =>
      have hnd1 : (stdIds ps).Nodup := hnd
      have hfresh1 : ∀ i ∈ stdIds ps, ledgerLookup i led = none := hfresh
      rw [highlightParts_cons_none, unhighlightParts_cons_none,
        zeroEmissiveParts_cons_none, ih led hnd1 hfresh1]
    | some m =>
      obtain ⟨mst, mc, me, mei⟩ := m
      cases mst with
      | false =>
        have hnd1 : (stdIds ps).Nodup := hnd
        have hfresh1 : ∀ i ∈ stdIds ps, ledgerLookup i led = none := hfresh
        rw [highlightParts_cons_nonstd, unhighlightParts_cons_nonstd,
          zeroEmissiveParts_cons_nonstd, ih led hnd1 hfresh1]
      | true =>
        have hnd1 : (pid :: stdIds ps).Nodup := hnd
        have hfresh1 : ∀ i ∈ pid :: stdIds ps, ledgerLookup i led = none :=
          hfresh
        have hnd2 := List.nodup_cons.mp hnd1
        have hfp : ledgerLookup pid led = none :=
          hfresh1 pid (List.mem_cons_self _ _)
        have hfresh2 : ∀ i ∈ stdIds ps,
            ledgerLookup i ((pid, mc) :: led) = none := by
          intro i hi
          have hne : ¬(pid = i) := fun hx => hnd2.1 (hx ▸ hi)
          show (if pid = i then some mc else ledgerLookup i led) = none
          simp only [hne, if_false]
          exact hfresh1 i (List.mem_cons_of_mem _ hi)
        have hlk : ledgerLookup pid
            (highlightParts c ps ((pid, mc) :: led)).2 = some mc := by
          apply ledgerLookup_highlightParts
          show (if pid = pid then some mc else ledgerLookup pid led) = some mc
          simp
        rw [highlightParts_cons_std, recordColor_of_none led pid mc hfp,
          unhighlightParts_cons_std, restoreColor_of_some _ pid mc c hlk,
          zeroEmissiveParts_cons_std, ih _ hnd2.2 hfresh2]

/-- With pairwise distinct root ids, applying a highlight through an object
reference replaces exactly that object and returns the ledger the pass on
its parts produced. -/
theorem applyHighlight_found (c : Nat) :
    ∀ (scene : List Object3D) (X : Object3D) (led : List (Nat × Nat)),
      X ∈ scene → (scene.map Object3D.rootId).Nodup →
      applyHighlight c X.rootId scene led
        = (replaceByRoot X.rootId
             { X with parts := (highlightParts c X.parts led).1 } scene,
           (highlightParts c X.parts led).2) := by
  intro scene
  induction scene with
  | nil => intro X led hmem _; exact absurd hmem (List.not_mem_nil X)
  | cons o os ih =>
    intro X led hmem hnd
    unfold applyHighlight replaceByRoot
    by_cases hr : o.rootId = X.rootId
    · have hXo : X = o := by
        rcases List.mem_cons.mp hmem with h | h
        · exact h
        · exfalso
          rw [List.map_cons, List.nodup_cons] at hnd
          exact hnd.1 (hr ▸ List.mem_map_of_mem Object3D.rootId h)
      subst hXo
      simp [hr]
    · have hmem1 : X ∈ os := by
        rcases List.mem_cons.mp hmem with h | h
        · exact absurd (by rw [h]) hr
        · exact h
      have hnd1 : (os.map Object3D.rootId).Nodup := by
        rw [List.map_cons, List.nodup_cons] at hnd
        exact hnd.2
      simp only [hr, if_false]
      rw [ih X led hmem1 hnd1]

/-- Same resolution for the unhighlight pass. -/
theorem applyUnhighlight_found :
    ∀ (scene : List Object3D) (X : Object3D) (led : List (Nat × Nat)),
      X ∈ scene → (scene.map Object3D.rootId).Nodup →
      applyUnhighlight X.rootId led scene
        = replaceByRoot X.rootId
            { X with parts := unhighlightParts led X.parts } scene := by
  intro scene
  induction scene with
  | nil => intro X led hmem _; exact absurd hmem (List.not_mem_nil X)
  | cons o os ih =>
    intro X led hmem hnd
    unfold applyUnhighlight replaceByRoot
    by_cases hr : o.rootId = X.rootId
    · have hXo : X = o := by
        rcases List.mem_cons.mp hmem with h | h
        · exact h
        · exfalso
          rw [List.map_cons, List.nodup_cons] at hnd
          exact hnd.1 (hr ▸ List.mem_map_of_mem Object3D.rootId h)
      subst hXo
      simp [hr]
    · have hmem1 : X ∈ os := by
        rcases List.mem_cons.mp hmem with h | h
        · exact absurd (by rw [h]) hr
        · exact h
      have hnd1 : (os.map Object3D.rootId).Nodup := by
        rw [List.map_cons, List.nodup_cons] at hnd
        exact hnd.2
      simp only [hr, if_false]
      rw [ih X led hmem1 hnd1]

/-- Replacing by an object that keeps the root id keeps the root id list. -/
theorem replaceByRoot_map_rootId (i : Nat) (o1 : Object3D)
    (h : o1.rootId = i) :
    ∀ scene : List Object3D,
      (replaceByRoot i o1 scene).map Object3D.rootId
        = scene.map Object3D.rootId := by
  intro scene
  induction scene with
  | nil => rfl
  | cons o os ih =>
    unfold replaceByRoot
    by_cases hr : o.rootId = i
    · simp [hr, h]
    · simp [hr, ih]

/-- The replacement object is a member of the replaced scene whenever some
object carried the root id. -/
theorem replaceByRoot_mem (i : Nat) (o1 : Object3D) :
    ∀ scene : List Object3D, (∃ o ∈ scene, o.rootId = i) →
      o1 ∈ replaceByRoot i o1 scene := by
  intro scene
  induction scene with
  | nil =>
    rintro ⟨o, ho, _⟩
    exact absurd ho (List.not_mem_nil o)
  | cons o os ih =>
    rintro ⟨o2, ho2, hr2⟩
    unfold replaceByRoot
    by_cases hr : o.rootId = i
    · simp [hr]
    · simp only [hr, if_false]
      apply List.mem_cons_of_mem
      apply ih
      rcases List.mem_cons.mp ho2 with h | h
      · exact absurd (h ▸ hr2) hr
      · exact ⟨o2, h, hr2⟩

/-- One-step equation for replaceByRoot on a cons. -/
theorem replaceByRoot_cons (i : Nat) (o1 o : Object3D) (os : List Object3D) :
    replaceByRoot i o1 (o :: os)
      = if o.rootId = i then o1 :: os else o :: replaceByRoot i o1 os := rfl

/-- Two replacements at the same root id collapse to the second. -/
theorem replaceByRoot_twice (i : Nat) (o1 o2 : Object3D)
    (h : o1.rootId = i) :
    ∀ scene : List Object3D,
      replaceByRoot i o2 (replaceByRoot i o1 scene)
        = replaceByRoot i o2 scene := by
  intro scene
  induction scene with
  | nil => rfl
  | cons o os ih =>
    by_cases hr : o.rootId = i
    · rw [replaceByRoot_cons i o1 o os, if_pos hr,
        replaceByRoot_cons i o2 o1 os, if_pos h,
        replaceByRoot_cons i o2 o os, if_pos hr]
    · rw [replaceByRoot_cons i o1 o os, if_neg hr,
        replaceByRoot_cons i o2 o (replaceByRoot i o1 os), if_neg hr,
        replaceByRoot_cons i o2 o os, if_neg hr, ih]

/-- C6: clicking an interactive object X (selecting it) and clicking X
again returns the selection to none, publishes none, and leaves X with
every standard-material part carrying exactly its recorded original color
and emissive intensity zero (and everything else in the scene untouched). -/
theorem select_toggle_color_roundtrip (s : IMState) (X : Object3D)
    (hmem : X ∈ s.scene)
    (hroots : (s.scene.map Object3D.rootId).Nodup)
    (hsel : s.selectedObject = none)
    (hpres : s.isPresenting = false)
    (hids : (stdIds X.parts).Nodup)
    (hfresh : ∀ i ∈ stdIds X.parts, ledgerLookup i s.originalColors = none) :
    (onClick (some X.rootId) (onClick (some X.rootId) s)).selectedObject
      = none ∧
    (onClick (some X.rootId) (onClick (some X.rootId) s)).storeSelectedId
      = none ∧
    (onClick (some X.rootId) (onClick (some X.rootId) s)).scene
      = replaceByRoot X.rootId { X with parts := zeroEmissiveParts X.parts }
          s.scene := by
  have hnp : ¬(s.isPresenting = true) := by
    rw [hpres]
    exact Bool.false_ne_true
  have hns : ¬(s.selectedObject = some X.rootId) := by
    rw [hsel]
    simp
  have happ := applyHighlight_found 0xff00ff s.scene X s.originalColors
    hmem hroots
  have h1 : onClick (some X.rootId) s
      = { s with
            scene := replaceByRoot X.rootId
              { X with
                  parts := (highlightParts 0xff00ff X.parts
                    s.originalColors).1 }
              s.scene,
            originalColors :=
              (highlightParts 0xff00ff X.parts s.originalColors).2,
            selectedObject := some X.rootId,
            storeSelectedId := some X.rootId } := by
    unfold onClick
    rw [if_neg hnp]
    dsimp only
    unfold selectObject
    rw [if_neg hns, hsel]
    unfold highlightIn
    dsimp only
    rw [happ]
  have hmem1 : ({ X with
        parts := (highlightParts 0xff00ff X.parts s.originalColors).1 }
          : Object3D)
      ∈ replaceByRoot X.rootId
          { X with
              parts := (highlightParts 0xff00ff X.parts s.originalColors).1 }
          s.scene :=
    replaceByRoot_mem X.rootId _ s.scene ⟨X, hmem, rfl⟩
  have hroots1 : ((replaceByRoot X.rootId
        { X with
            parts := (highlightParts 0xff00ff X.parts s.originalColors).1 }
        s.scene).map Object3D.rootId).Nodup := by
    rw [replaceByRoot_map_rootId X.rootId
      { X with
          parts := (highlightParts 0xff00ff X.parts s.originalColors).1 }
      rfl]
    exact hroots
  have happ2 : applyUnhighlight X.rootId
        (highlightParts 0xff00ff X.parts s.originalColors).2
        (replaceByRoot X.rootId
          { X with
              parts := (highlightParts 0xff00ff X.parts s.originalColors).1 }
          s.scene)
      = replaceByRoot X.rootId
          { X with
              parts := unhighlightParts
                (highlightParts 0xff00ff X.parts s.originalColors).2
                (highlightParts 0xff00ff X.parts s.originalColors).1 }
          (replaceByRoot X.rootId
            { X with
                parts := (highlightParts 0xff00ff X.parts
                  s.originalColors).1 }
            s.scene) :=
    applyUnhighlight_found _ _ _ hmem1 hroots1
  have hRT : unhighlightParts
        (highlightParts 0xff00ff X.parts s.originalColors).2
        (highlightParts 0xff00ff X.parts s.originalColors).1
      = zeroEmissiveParts X.parts :=
    highlight_unhighlight_roundtrip 0xff00ff X.parts s.originalColors
      hids hfresh
  have htwice : replaceByRoot X.rootId
        { X with parts := zeroEmissiveParts X.parts }
        (replaceByRoot X.rootId
          { X with
              parts := (highlightParts 0xff00ff X.parts s.originalColors).1 }
          s.scene)
      = replaceByRoot X.rootId
          { X with parts := zeroEmissiveParts X.parts } s.scene :=
    replaceByRoot_twice X.rootId
      { X with
          parts := (highlightParts 0xff00ff X.parts s.originalColors).1 }
      { X with parts := zeroEmissiveParts X.parts } rfl s.scene
  have h2 : onClick (some X.rootId) (onClick (some X.rootId) s)
      = { s with
            scene := replaceByRoot X.rootId
              { X with parts := zeroEmissiveParts X.parts } s.scene,
            originalColors :=
              (highlightParts 0xff00ff X.parts s.originalColors).2,
            selectedObject := none,
            storeSelectedId := none } := by
    rw [h1]
    unfold onClick
    dsimp only
    rw [if_neg hnp]
    unfold selectObject
    dsimp only
    rw [if_pos rfl]
    unfold deselectObject
    dsimp only
    unfold unhighlightIn
    dsimp only
    rw [happ2, hRT, htwice]
  rw [h2]
  exact ⟨rfl, rfl, rfl⟩

/-- Witness for C6: the double click on the concrete one-object scene. -/
theorem select_toggle_color_roundtrip_witness :
    (onClick (some (10 : Nat)) (onClick (some (10 : Nat))
        (initialIMState sampleScene))).selectedObject = none ∧
    (onClick (some (10 : Nat)) (onClick (some (10 : Nat))
        (initialIMState sampleScene))).storeSelectedId = none ∧
    (onClick (some (10 : Nat)) (onClick (some (10 : Nat))
        (initialIMState sampleScene))).scene
      = replaceByRoot 10
          { rootId := 10,
            parts := zeroEmissiveParts
              [{ id := 10,
                 material := some { standard := true, color := 0xff0000,
                                    emissive := 0, emissiveIntensity := 0 } }] }
          (initialIMState sampleScene).scene :=
  select_toggle_color_roundtrip (initialIMState sampleScene)
    { rootId := 10,
      parts := [{ id := 10,
                  material := some { standard := true, color := 0xff0000,
                                     emissive := 0, emissiveIntensity := 0 } }] }
    (by decide) (by decide) (by decide) (by decide) (by decide) (by decide)

end MRroom

